import Mathlib

/-!
Shallow embedding of the thermocycler control client (`src/tc.py`).

Conventions of the embedding:
* XML element trees (`xml.etree.ElementTree.Element`) are modelled by the
  inductive `Xml`: a tag, an attribute list in insertion order, optional text,
  and a child list in append order.
* Python `float` and `datetime.datetime` values never take part in arithmetic
  in this file's scope; they are modelled by the string rendering the code
  extracts from them (`str(x)` resp. `x.isoformat()`).
* Python machine-wide integers are `Nat`/`Int` (Python ints are unbounded).
* The class-level mutable counter `ThermoCycler.command_id` is threaded as an
  explicit `Nat` state; HTTP traffic is modelled by opaque response tokens and
  an oracle function giving the response body for each request.
-/

/-- XML element value: tag, attributes (insertion order), optional text and
children (append order). -/
inductive Xml where
  | elem (tag : String) (attrs : List (String × String)) (text : Option String)
      (children : List Xml)
deriving Repr

/-- Tag of an XML element. -/
def Xml.tag : Xml → String
  | .elem t _ _ _ => t

/-- Attribute list of an XML element. -/
def Xml.attrs : Xml → List (String × String)
  | .elem _ a _ _ => a

/-- Text content of an XML element. -/
def Xml.text : Xml → Option String
  | .elem _ _ tx _ => tx

/-- Child list of an XML element. -/
def Xml.children : Xml → List Xml
  | .elem _ _ _ cs => cs

/-- Character-level worker for Python `str.title`: an alphabetic character is
uppercased when the previous character was not alphabetic and lowercased
otherwise; other characters pass through. -/
def pyTitleGo : Bool → List Char → List Char
  | _, [] => []
  | prevCased, c :: cs =>
    (if c.isAlpha then (if prevCased then c.toLower else c.toUpper) else c)
      :: pyTitleGo c.isAlpha cs

/-- Python `str.title()`. -/
def pyTitle (s : String) : String := ⟨pyTitleGo false s.data⟩

/-- Worker for Python `str.split(sep)` with a one-character separator:
accumulates the current component (reversed) and cuts at each separator. -/
def pySplitGo (sep : Char) : List Char → List Char → List String
  | acc, [] => [⟨acc.reverse⟩]
  | acc, c :: cs =>
    if c = sep then ⟨acc.reverse⟩ :: pySplitGo sep [] cs
    else pySplitGo sep (c :: acc) cs

/-- Python `s.split(sep)` for a one-character separator `sep` (every
occurrence cuts; empty components are kept). -/
def pySplit (sep : Char) (s : String) : List String := pySplitGo sep [] s.data

/-- Python `"".join(parts)`. -/
def pyConcat (parts : List String) : String := parts.foldl (fun r s => r ++ s) ""

/-- Embeds `to_pascal_case` of tc.py: split on `_`, title-case each component,
concatenate. -/
def to_pascal_case (snake_str : String) : String :=
  pyConcat ((pySplit '_' snake_str).map pyTitle)

/-- Embeds `to_camel_case` of tc.py: first component verbatim, later components
title-cased, concatenated. -/
def to_camel_case (snake_str : String) : String :=
  match pySplit '_' snake_str with
  | [] => ""
  | c :: cs => c ++ pyConcat (cs.map pyTitle)

/-- Python `float` value, modelled by its `str()` rendering (tc.py only ever
renders its floats). -/
structure PyFloat where
  render : String
deriving Repr, DecidableEq

/-- Python `datetime.datetime` value, modelled by its `isoformat()` rendering
(tc.py only ever calls `isoformat` on it). -/
structure PyDateTime where
  isoformat : String
deriving Repr, DecidableEq

/-- Python `str()` of a bool. -/
def pyStrBool : Bool → String
  | true => "True"
  | false => "False"

/-- Embeds the `MetaData` dataclass of tc.py. -/
structure MetaData where
  method_name : String
  creator : String := ""
  description : String := ""
  date_time : PyDateTime
deriving Repr, DecidableEq

/-- Declared dataclass field order of `MetaData`, as `dataclasses.fields`
reports it. -/
def MetaData.fieldNames : List String :=
  ["method_name", "creator", "description", "date_time"]

/-- Value of `getattr(self, name)` for the string fields of `MetaData`. -/
def MetaData.strAttr (m : MetaData) : String → String
  | "method_name" => m.method_name
  | "creator" => m.creator
  | "description" => m.description
  | _ => ""

/-- Python `value or ""` applied to a string value. -/
def pyOrEmpty (s : String) : String := if s = "" then "" else s

/-- Embeds `MetaData.to_dict`: for each declared field, a camelCase key mapped
to `value.isoformat()` for `date_time` and `value or ""` otherwise. -/
def MetaData.to_dict (m : MetaData) : List (String × String) :=
  MetaData.fieldNames.map fun fn =>
    (to_camel_case fn,
      if fn = "date_time" then m.date_time.isoformat else pyOrEmpty (m.strAttr fn))

/-- Embeds the `MethodStep` dataclass of tc.py. -/
structure MethodStep where
  number : Int
  slope : PyFloat
  plateau_temperature : Int
  plateau_time : Int
  over_shoot_slope_1 : PyFloat
  over_shoot_temperature : Int
  over_shoot_time : Int
  over_shoot_slope_2 : PyFloat
  goto_number : Int
  loop_number : Int
  pid_number : Int
  lid_temp : Int
deriving Repr, DecidableEq

/-- Declared dataclass field order of `MethodStep`. -/
def MethodStep.fieldNames : List String :=
  ["number", "slope", "plateau_temperature", "plateau_time", "over_shoot_slope_1",
   "over_shoot_temperature", "over_shoot_time", "over_shoot_slope_2",
   "goto_number", "loop_number", "pid_number", "lid_temp"]

/-- Value of `str(getattr(self, name))` for each `MethodStep` field. -/
def MethodStep.strAttr (s : MethodStep) : String → String
  | "number" => toString s.number
  | "slope" => s.slope.render
  | "plateau_temperature" => toString s.plateau_temperature
  | "plateau_time" => toString s.plateau_time
  | "over_shoot_slope_1" => s.over_shoot_slope_1.render
  | "over_shoot_temperature" => toString s.over_shoot_temperature
  | "over_shoot_time" => toString s.over_shoot_time
  | "over_shoot_slope_2" => s.over_shoot_slope_2.render
  | "goto_number" => toString s.goto_number
  | "loop_number" => toString s.loop_number
  | "pid_number" => toString s.pid_number
  | "lid_temp" => toString s.lid_temp
  | _ => ""

/-- Embeds `MethodStep.to_xml`: a `Step` element with one PascalCase-tagged
text child per declared field, in declared order; no validation is performed. -/
def MethodStep.to_xml (s : MethodStep) : Xml :=
  Xml.elem "Step" [] none
    (MethodStep.fieldNames.map fun fn =>
      Xml.elem (to_pascal_case fn) [] (some (s.strAttr fn)) [])

/-- Embeds the `PIDMember` dataclass of tc.py, defaults copied from the
hardware manual. -/
structure PIDMember where
  number : String := "1"
  p_heating : Int := 60
  p_cooling : Int := 80
  i_heating : Int := 250
  i_cooling : Int := 100
  d_heating : Int := 10
  d_cooling : Int := 10
  p_lid : Int := 100
  i_lid : Int := 70
deriving Repr, DecidableEq

/-- Declared dataclass field order of `PIDMember`. -/
def PIDMember.fieldNames : List String :=
  ["number", "p_heating", "p_cooling", "i_heating", "i_cooling",
   "d_heating", "d_cooling", "p_lid", "i_lid"]

/-- Value of `str(getattr(self, name))` for each `PIDMember` field. -/
def PIDMember.strAttr (p : PIDMember) : String → String
  | "number" => p.number
  | "p_heating" => toString p.p_heating
  | "p_cooling" => toString p.p_cooling
  | "i_heating" => toString p.i_heating
  | "i_cooling" => toString p.i_cooling
  | "d_heating" => toString p.d_heating
  | "d_cooling" => toString p.d_cooling
  | "p_lid" => toString p.p_lid
  | "i_lid" => toString p.i_lid
  | _ => ""

/-- Embeds `PIDMember.to_xml`: a `PID` element whose children are the fields
other than `number`, with `number` set as an attribute afterwards. -/
def PIDMember.to_xml (p : PIDMember) : Xml :=
  Xml.elem "PID" [("number", p.number)] none
    ((PIDMember.fieldNames.filter (fun fn => !(fn = "number"))).map fun fn =>
      Xml.elem (to_pascal_case fn) [] (some (p.strAttr fn)) [])

/-- Embeds the `Method` dataclass of tc.py. The Python source annotates
`start_lid_temperature` twice; the runtime class keeps a single field of that
name (see `Method.declaredFields` / `Method.fieldNames` for the source-text
view), so the Lean structure has it once. -/
structure Method where
  variant : Int
  plate_type : Int
  fluid_quantity : Int
  post_heating : Bool
  start_block_temperature : Int
  start_lid_temperature : Int
  steps : List MethodStep
  pid_set : List PIDMember
  metadata : MetaData
deriving Repr

/-- Field annotations exactly as written in the `Method` class body of tc.py,
duplicate `start_lid_temperature` line included. -/
def Method.declaredFields : List String :=
  ["variant", "plate_type", "fluid_quantity", "post_heating",
   "start_block_temperature", "start_lid_temperature", "start_lid_temperature",
   "steps", "pid_set", "metadata"]

/-- Inserting a key into a Python dict keeps the first occurrence's position:
a repeated key only overwrites the value. -/
def pyDictInsertKey (keys : List String) (k : String) : List String :=
  if keys.contains k then keys else keys ++ [k]

/-- Key list of the Python dict built by inserting the given keys in order
(models `__annotations__`, a dict keyed by field name). -/
def pyDictKeys (ks : List String) : List String := ks.foldl pyDictInsertKey []

/-- Field order of `Method` as `dataclasses.fields` reports it: the insertion
order of the class-body annotations dict. -/
def Method.fieldNames : List String := pyDictKeys Method.declaredFields

/-- Value of `str(getattr(self, name))` for the scalar fields of `Method`. -/
def Method.strAttr (m : Method) : String → String
  | "variant" => toString m.variant
  | "plate_type" => toString m.plate_type
  | "fluid_quantity" => toString m.fluid_quantity
  | "post_heating" => pyStrBool m.post_heating
  | "start_block_temperature" => toString m.start_block_temperature
  | "start_lid_temperature" => toString m.start_lid_temperature
  | _ => ""

/-- Embeds `Method.to_xml`: one PascalCase text child per field other than
`metadata`, `steps` and `pid_set` in field order, then the encoded steps in
list order, then a single `PIDSet` element wrapping the encoded PID members,
and the metadata dict as root attributes; no validation is performed. -/
def Method.to_xml (m : Method) : Xml :=
  Xml.elem "Method" (m.metadata.to_dict) none
    (((Method.fieldNames.filter
        (fun fn => !(["metadata", "steps", "pid_set"].contains fn))).map fun fn =>
      Xml.elem (to_pascal_case fn) [] (some (m.strAttr fn)) [])
     ++ m.steps.map MethodStep.to_xml
     ++ [Xml.elem "PIDSet" [] none (m.pid_set.map PIDMember.to_xml)])

/-- Embeds the `DeviceState` enum of tc.py. -/
inductive DeviceState where
  | IDLE
  | BUSY
deriving Repr, DecidableEq

/-- The enum member values. -/
def DeviceState.value : DeviceState → String
  | .IDLE => "idle"
  | .BUSY => "busy"

/-- The enum members in declaration order. -/
def DeviceState.members : List DeviceState := [.IDLE, .BUSY]

/-- Python enum value lookup `DeviceState(text)`: the member whose value
equals the text, `none` when the lookup raises `ValueError`. -/
def DeviceState.ofValue (s : String) : Option DeviceState :=
  DeviceState.members.find? fun d => d.value == s

/-- Qualified tag that ElementTree gives `s:state` under `SOAP_NAMESPACE`
(prefix `s` bound to `http://sila.coop`). -/
def silaStateTag : String := "\x7bhttp://sila.coop\x7dstate"

mutual

/-- First element with the given tag among an element's descendants in
document order (ElementTree `find(".//tag")`: the root itself is excluded). -/
def Xml.findDesc (t : String) : Xml → Option Xml
  | .elem _ _ _ cs => Xml.findDescList t cs

/-- First element with the given tag in a forest: each tree's root is checked
before its descendants, trees left to right. -/
def Xml.findDescList (t : String) : List Xml → Option Xml
  | [] => none
  | c :: cs =>
    if c.tag = t then some c
    else
      match Xml.findDesc t c with
      | some r => some r
      | none => Xml.findDescList t cs

end

/-- Embeds the body of `ThermoCycler.get_state` after the HTTP exchange, on an
already-parsed response body: `root.find(".//s:state", SOAP_NAMESPACE).text`
fed to the `DeviceState` constructor. `.error` carries the Python exception:
`AttributeError` when no `s:state` element exists (`None.text`), `ValueError`
when the text is not a `DeviceState` value. -/
def get_state_parse (doc : Xml) : Except String DeviceState :=
  match doc.findDesc silaStateTag with
  | none => .error "AttributeError: NoneType object has no attribute text"
  | some e =>
    match e.text with
    | none => .error "ValueError: None is not a valid DeviceState"
    | some s =>
      match DeviceState.ofValue s with
      | none => .error ("ValueError: " ++ s ++ " is not a valid DeviceState")
      | some d => .ok d

/-- Python `str.lstrip()` whitespace test (the characters occurring here are
all ASCII). -/
def isPyWs (c : Char) : Bool :=
  c == ' ' || c == '\t' || c == '\n' || c == '\r' || c == '\x0b' || c == '\x0c'

/-- Worker for `str.lstrip()`. -/
def lstripChars : List Char → List Char
  | [] => []
  | c :: cs => if isPyWs c then lstripChars cs else c :: cs

/-- Python `str.lstrip()`. -/
def pyLstrip (s : String) : String := ⟨lstripChars s.data⟩

/-- Python `" ".join(parts)`. -/
def joinSpace : List String → String
  | [] => ""
  | [x] => x
  | x :: xs => x ++ " " ++ joinSpace xs

/-- Lines of the request f-string of `ThermoCycler.send_command`, with the
command name and the incremented counter substituted. The Python code builds
one string and re-splits it on newlines; for any command name whose rendering
has no newline — true of every call site — that split yields exactly these
lines. -/
def sendCommandLines (command : String) (id : Nat) : List String :=
  ["<s:Envelope",
   "      xmlns:s=\"http://schemas.xmlsoap.org/soap/envelope/\">",
   "      <s:Body>",
   "        <" ++ command,
   "          xmlns=\"http://sila.coop\"",
   "          xmlns:i=\"http://www.w3.org/2001/XMLSchema-instance\">",
   "          <requestId>" ++ toString id ++ "</requestId>",
   "          <lockId i:nil=\"true\"/>",
   "        </" ++ command ++ ">",
   "      </s:Body>",
   "    </s:Envelope>"]

/-- Embeds the request construction of `ThermoCycler.send_command`: split the
f-string on newlines, left-strip each line, join with single spaces. -/
def sendCommandReq (command : String) (id : Nat) : String :=
  joinSpace ((sendCommandLines command id).map pyLstrip)

/-- Opaque token for the `requests.post` reply to one command POST; the
device's reply is determined by the command name and request id. -/
structure HttpResponse where
  command : String
  requestId : Nat
deriving Repr, DecidableEq

/-- Initial value of the class attribute `ThermoCycler.command_id`. -/
def commandIdInit : Nat := 980077706

/-- Embeds `ThermoCycler.send_command` with the class-level counter threaded
explicitly: increment the counter, build the request document, POST it and
return the response. Result: (new counter, request document, response). -/
def send_command (command_id : Nat) (command : String) : Nat × String × HttpResponse :=
  (command_id + 1, sendCommandReq command (command_id + 1),
   ⟨command, command_id + 1⟩)

/-- Device/transport model: the parsed XML reply body for each request. -/
def Oracle : Type := HttpResponse → Xml

/-- Embeds `ThermoCycler.get_status1`: exactly `send_command("GetStatus")`. -/
def get_status1 (command_id : Nat) : Nat × String × HttpResponse :=
  send_command command_id "GetStatus"

/-- Embeds `ThermoCycler.get_state` under a device oracle: issue `GetStatus`
through `get_status1`, then parse the reply body. Result: (new counter,
parsed device state or exception). -/
def get_state (oracle : Oracle) (command_id : Nat) :
    Nat × Except String DeviceState :=
  (get_status1 command_id |>.1,
   get_state_parse (oracle (get_status1 command_id |>.2.2)))

/-- Observable protocol events of a run: an HTTP POST of a command with its
request id, or an `asyncio.sleep` of the given number of seconds. -/
inductive Event where
  | post (command : String) (requestId : Nat)
  | sleep (seconds : Nat)
deriving Repr, DecidableEq

/-- Embeds the polling loop of the `wait_until_idle` decorator, with an
explicit poll budget `fuel` (the source loop is unbounded, so `none` means the
loop is still waiting after `fuel` polls). Each iteration calls `get_state`
once; on `IDLE` the loop exits, otherwise it sleeps one second and re-polls.
On exit, returns the final counter and the loop's event log; a `get_state`
exception propagates as `.error`. -/
def waitLoop (oracle : Oracle) : Nat → Nat → Option (Except String (Nat × List Event))
  | 0, _ => none
  | fuel + 1, command_id =>
    match (get_state oracle command_id).2 with
    | .error e => some (.error e)
    | .ok s =>
      if s = DeviceState.IDLE then
        some (.ok ((get_state oracle command_id).1,
          [.post "GetStatus" (get_state oracle command_id).1]))
      else
        match waitLoop oracle fuel (get_state oracle command_id).1 with
        | none => none
        | some (.error e) => some (.error e)
        | some (.ok (idEnd, evs)) =>
          some (.ok (idEnd,
            .post "GetStatus" (get_state oracle command_id).1 :: .sleep 1 :: evs))

/-- Embeds a `wait_until_idle`-decorated command method (`open_door`,
`close_door`, `stop`): call the wrapped body once — one `send_command` — keep
its response, run the polling loop, and return the original response. Result
on success: (response handed to the caller, final counter, full event log). -/
def runWrappedCommand (oracle : Oracle) (command : String) (fuel command_id : Nat) :
    Option (Except String (HttpResponse × Nat × List Event)) :=
  match waitLoop oracle fuel (send_command command_id command).1 with
  | none => none
  | some (.error e) => some (.error e)
  | some (.ok (idEnd, evs)) =>
    some (.ok ((send_command command_id command).2.2, idEnd,
      .post command (send_command command_id command).1 :: evs))

/-- Reply body whose `s:state` element carries the given text, shaped like the
device's `GetStatusResponse`. -/
def stateDoc (s : String) : Xml :=
  Xml.elem "\x7bhttp://schemas.xmlsoap.org/soap/envelope/\x7dEnvelope" [] none
    [Xml.elem "\x7bhttp://schemas.xmlsoap.org/soap/envelope/\x7dBody" [] none
      [Xml.elem "\x7bhttp://sila.coop\x7dGetStatusResponse" [] none
        [Xml.elem silaStateTag [] (some s) []]]]

/-- Device script for the busy, busy, idle scenario after a command issued
with request id `base + 1`: the polls with request ids `base + 2` and
`base + 3` see `busy`, any later poll sees `idle`. -/
def oracleBusyBusyIdle (base : Nat) : Oracle := fun r =>
  if r.requestId ≤ base + 3 then stateDoc "busy" else stateDoc "idle"

/-- Device that always reports `busy`. -/
def oracleAlwaysBusy : Oracle := fun _ => stateDoc "busy"

/-- Device that always reports `idle`. -/
def oracleAlwaysIdle : Oracle := fun _ => stateDoc "idle"

/-- Test whether the first list is an initial segment of the second. -/
def prefixChars : List Char → List Char → Bool
  | [], _ => true
  | _ :: _, [] => false
  | a :: as, b :: bs => a == b && prefixChars as bs

/-- Substring occurrence test on character lists (Python `needle in hay`). -/
def containsChars : List Char → List Char → Bool
  | [], needle => prefixChars needle []
  | c :: t, needle => prefixChars needle (c :: t) || containsChars t needle

/-- Python `needle in hay` on strings. -/
def strContains (hay needle : String) : Bool := containsChars hay.data needle.data

/-- Modelled from the spec: the Command Envelope Builder of spec §4.2 with the
optional payload the spec describes — an already-encoded XML string embedded
verbatim inside a `ParamsXML` element when present. `ThermoCycler.send_command`
in src/tc.py has no payload parameter and no `ParamsXML` handling; this
definition exists to compare the spec's builder with the code's. -/
def specEnvelopeLines (command : String) (id : Nat) (payload : Option String) :
    List String :=
  ["<s:Envelope",
   "      xmlns:s=\"http://schemas.xmlsoap.org/soap/envelope/\">",
   "      <s:Body>",
   "        <" ++ command,
   "          xmlns=\"http://sila.coop\"",
   "          xmlns:i=\"http://www.w3.org/2001/XMLSchema-instance\">",
   "          <requestId>" ++ toString id ++ "</requestId>",
   "          <lockId i:nil=\"true\"/>"]
  ++ (match payload with
      | none => []
      | some p => ["          <ParamsXML>" ++ p ++ "</ParamsXML>"])
  ++ ["        </" ++ command ++ ">",
      "      </s:Body>",
      "    </s:Envelope>"]

/-- Modelled from the spec: whitespace-collapsed rendering of
`specEnvelopeLines`, mirroring the code's line treatment. -/
def specEnvelopeBuilder (command : String) (id : Nat) (payload : Option String) :
    String :=
  joinSpace ((specEnvelopeLines command id payload).map pyLstrip)

/-- Concrete metadata used in counterexamples and witnesses. -/
def someMeta : MetaData := ⟨"demo", "", "", ⟨"2024-09-12T10:35:21"⟩⟩

/-- MethodStep violating the backward-goto invariant: `goto_number = 5` is
nonzero and not smaller than `number = 1`. -/
def badGotoStep : MethodStep :=
  ⟨1, ⟨"0.1"⟩, 95, 60, ⟨"0.0"⟩, 0, 0, ⟨"0.0"⟩, 5, 2, 1, 105⟩

/-- First of two steps sharing the step number 2; its `pid_number = 7` matches
no `PIDMember.number` in `badMethod.pid_set`. -/
def dupStep1 : MethodStep :=
  ⟨2, ⟨"4.4"⟩, 95, 60, ⟨"0.0"⟩, 0, 0, ⟨"0.0"⟩, 0, 0, 7, 105⟩

/-- Second step with the duplicated step number 2. -/
def dupStep2 : MethodStep :=
  ⟨2, ⟨"4.4"⟩, 72, 30, ⟨"0.0"⟩, 0, 0, ⟨"0.0"⟩, 0, 0, 7, 105⟩

/-- Method value violating the Data Model invariants: duplicate step numbers
and a step `pid_number` with no matching `PIDMember`. -/
def badMethod : Method :=
  ⟨96, 1, 25, false, 25, 105, [dupStep1, dupStep2], [{}], someMeta⟩

/-! Helper lemmas about the substring test. -/

theorem prefixChars_self_append (n r : List Char) :
    prefixChars n (n ++ r) = true := by
  induction n with
  | nil => rfl
  | cons c cs ih => simp [prefixChars, ih]

theorem containsChars_nil_needle (h : List Char) : containsChars h [] = true := by
  cases h <;> simp [containsChars, prefixChars]

theorem containsChars_cons_of (c : Char) (t n : List Char)
    (hc : containsChars t n = true) : containsChars (c :: t) n = true := by
  simp [containsChars, hc]

theorem containsChars_of_prefixChars (h n : List Char)
    (hp : prefixChars n h = true) : containsChars h n = true := by
  cases h with
  | nil =>
    cases n with
    | nil => rfl
    | cons c cs => simp [prefixChars] at hp
  | cons c cs => simp [containsChars, hp]

theorem containsChars_append_right (a b n : List Char)
    (hb : containsChars b n = true) : containsChars (a ++ b) n = true := by
  induction a with
  | nil => simpa using hb
  | cons c cs ih => exact containsChars_cons_of c _ n ih

theorem prefixChars_extend (n h r : List Char)
    (hp : prefixChars n h = true) : prefixChars n (h ++ r) = true := by
  induction n generalizing h with
  | nil => rfl
  | cons c cs ih =>
    cases h with
    | nil => simp [prefixChars] at hp
    | cons x xs =>
      simp only [prefixChars, Bool.and_eq_true, beq_iff_eq] at hp
      simp [prefixChars, hp.1, ih xs hp.2]

theorem containsChars_append_left (a b n : List Char)
    (ha : containsChars a n = true) : containsChars (a ++ b) n = true := by
  induction a with
  | nil =>
    cases n with
    | nil => exact containsChars_nil_needle b
    | cons c cs => simp [containsChars, prefixChars] at ha
  | cons x xs ih =>
    simp only [containsChars, Bool.or_eq_true] at ha
    rcases ha with hp | ht
    · have hext := prefixChars_extend n (x :: xs) b hp
      simp only [List.cons_append] at hext
      simp [containsChars, hext]
    · have hrec := ih ht
      simp [containsChars, hrec]

theorem strContains_append_right (a b n : String)
    (hb : strContains b n = true) : strContains (a ++ b) n = true := by
  simpa [strContains, String.data_append] using
    containsChars_append_right a.data b.data n.data hb

theorem strContains_append_left (a b n : String)
    (ha : strContains a n = true) : strContains (a ++ b) n = true := by
  simpa [strContains, String.data_append] using
    containsChars_append_left a.data b.data n.data ha

theorem strContains_self (n : String) : strContains n n = true := by
  have := prefixChars_self_append n.data []
  simp only [List.append_nil] at this
  exact containsChars_of_prefixChars n.data n.data this

theorem strContains_joinSpace_of_mem (ls : List String) (x : String)
    (hx : x ∈ ls) : strContains (joinSpace ls) x = true := by
  induction ls with
  | nil => cases hx
  | cons y ys ih =>
    cases ys with
    | nil =>
      rcases List.mem_singleton.mp hx with rfl
      exact strContains_self x
    | cons z zs =>
      rcases List.mem_cons.mp hx with rfl | hmem
      · show strContains (x ++ " " ++ joinSpace (z :: zs)) x = true
        rw [String.append_assoc]
        exact strContains_append_left x _ x (strContains_self x)
      · show strContains (y ++ " " ++ joinSpace (z :: zs)) x = true
        rw [String.append_assoc]
        exact strContains_append_right y _ x
          (strContains_append_right " " _ x (ih hmem))

/-! Helper lemmas: occurrences across an all-digit gap. -/

theorem prefixChars_gap (d b : List Char) (hdne : 0 < d.length)
    (hd : ∀ c ∈ d, c.isDigit = true) :
    ∀ (n a : List Char), (∀ c ∈ n, c.isDigit = false) →
      prefixChars n (a ++ d ++ b) = true → n.length ≤ a.length := by
  intro n
  induction n with
  | nil => intro a _ _; simp
  | cons nc n' ih =>
    intro a hn hp
    cases a with
    | nil =>
      cases d with
      | nil => simp at hdne
      | cons dc d' =>
        simp only [List.nil_append, List.cons_append, prefixChars,
          Bool.and_eq_true, beq_iff_eq] at hp
        have h1 : nc.isDigit = false := hn nc (List.mem_cons_self _ _)
        have h2 : dc.isDigit = true := hd dc (List.mem_cons_self _ _)
        rw [hp.1] at h1
        rw [h1] at h2
        cases h2
    | cons ac a' =>
      simp only [List.cons_append, prefixChars, Bool.and_eq_true, beq_iff_eq] at hp
      have hrec := ih a' (fun c hc => hn c (List.mem_cons_of_mem _ hc)) hp.2
      simpa using Nat.succ_le_succ hrec

theorem prefixChars_restrict :
    ∀ (n a c : List Char), prefixChars n (a ++ c) = true → n.length ≤ a.length →
      prefixChars n a = true := by
  intro n
  induction n with
  | nil => intro a c _ _; rfl
  | cons nc n' ih =>
    intro a c hp hl
    cases a with
    | nil => simp at hl
    | cons ac a' =>
      simp only [List.cons_append, prefixChars, Bool.and_eq_true, beq_iff_eq] at hp
      simp only [prefixChars, Bool.and_eq_true, beq_iff_eq]
      exact ⟨hp.1, ih a' c hp.2 (by simpa using hl)⟩

theorem containsChars_digits_prepend (n : List Char) (hnne : n ≠ [])
    (hn : ∀ c ∈ n, c.isDigit = false) :
    ∀ (d b : List Char), (∀ c ∈ d, c.isDigit = true) →
      containsChars b n = false → containsChars (d ++ b) n = false := by
  intro d
  induction d with
  | nil => intro b _ hb; simpa using hb
  | cons dc d' ih =>
    intro b hd hb
    simp only [List.cons_append, containsChars, Bool.or_eq_false_iff]
    refine ⟨?_, ih b (fun c hc => hd c (List.mem_cons_of_mem _ hc)) hb⟩
    cases n with
    | nil => exact absurd rfl hnne
    | cons nc n' =>
      have h1 : nc.isDigit = false := hn nc (List.mem_cons_self _ _)
      have h2 : dc.isDigit = true := hd dc (List.mem_cons_self _ _)
      have hne : (nc == dc) = false := by
        apply beq_eq_false_iff_ne.mpr
        intro h
        rw [h] at h1
        rw [h1] at h2
        cases h2
      simp [prefixChars, hne]

theorem containsChars_digit_gap (d : List Char) (hdne : 0 < d.length)
    (hd : ∀ c ∈ d, c.isDigit = true) (n : List Char) (hnne : n ≠ [])
    (hn : ∀ c ∈ n, c.isDigit = false) :
    ∀ (a b : List Char), containsChars a n = false → containsChars b n = false →
      containsChars (a ++ d ++ b) n = false := by
  intro a
  induction a with
  | nil =>
    intro b _ hb
    simpa using containsChars_digits_prepend n hnne hn d b hd hb
  | cons x xs ih =>
    intro b ha hb
    simp only [containsChars, Bool.or_eq_false_iff] at ha
    have hrest := ih b ha.2 hb
    simp only [List.cons_append, List.append_assoc] at hrest ⊢
    simp only [containsChars, Bool.or_eq_false_iff]
    refine ⟨?_, by simpa [List.append_assoc] using hrest⟩
    cases hval : prefixChars n (x :: (xs ++ (d ++ b))) with
    | false => rfl
    | true =>
      exfalso
      have hval' : prefixChars n ((x :: xs) ++ d ++ b) = true := by
        simpa [List.append_assoc] using hval
      have hlen := prefixChars_gap d b hdne hd n (x :: xs) hn hval'
      have hpref : prefixChars n (x :: xs) = true := by
        apply prefixChars_restrict n (x :: xs) (d ++ b) _ hlen
        simpa [List.append_assoc] using hval
      rw [hpref] at ha
      exact absurd ha.1 (by simp)

/-! Helper lemmas: decimal renderings of request ids are nonempty all-digit
strings. -/

theorem digitChar_isDigit (m : Nat) (hm : m < 10) :
    (Nat.digitChar m).isDigit = true := by
  interval_cases m <;> decide

theorem toDigitsCore_all_digits :
    ∀ (f n : Nat) (acc : List Char), (∀ c ∈ acc, c.isDigit = true) →
      ∀ c ∈ Nat.toDigitsCore 10 f n acc, c.isDigit = true := by
  intro f
  induction f with
  | zero => intro n acc hacc; simpa [Nat.toDigitsCore] using hacc
  | succ f' ih =>
    intro n acc hacc
    simp only [Nat.toDigitsCore]
    split
    · intro c hc
      rcases List.mem_cons.mp hc with rfl | h
      · exact digitChar_isDigit _ (Nat.mod_lt _ (by norm_num))
      · exact hacc c h
    · refine ih (n / 10) _ ?_
      intro c hc
      rcases List.mem_cons.mp hc with rfl | h
      · exact digitChar_isDigit _ (Nat.mod_lt _ (by norm_num))
      · exact hacc c h

theorem toDigitsCore_ne_nil :
    ∀ (f n : Nat) (acc : List Char), acc ≠ [] → Nat.toDigitsCore 10 f n acc ≠ [] := by
  intro f
  induction f with
  | zero => intro n acc hacc; simpa [Nat.toDigitsCore] using hacc
  | succ f' ih =>
    intro n acc hacc
    simp only [Nat.toDigitsCore]
    split
    · simp
    · exact ih (n / 10) _ (by simp)

theorem toString_nat_data (k : Nat) :
    (toString k).data = Nat.toDigitsCore 10 (k + 1) k [] := rfl

theorem toString_nat_all_digits (k : Nat) :
    ∀ c ∈ (toString k).data, c.isDigit = true := by
  rw [toString_nat_data]
  exact toDigitsCore_all_digits (k + 1) k [] (by intro c hc; cases hc)

theorem toString_nat_ne_nil (k : Nat) : (toString k).data ≠ [] := by
  rw [toString_nat_data]
  show Nat.toDigitsCore 10 (k + 1) k [] ≠ []
  simp only [Nat.toDigitsCore]
  split
  · simp
  · exact toDigitsCore_ne_nil k (k / 10) _ (by simp)

/-- A digit-free nonempty needle that occurs in neither `A` nor `B` does not
occur in `A ++ (toString id ++ B)`: an occurrence would have to contain a
digit of the id's decimal rendering. -/
theorem strContains_gap (A B needle : String) (id : Nat)
    (hne : needle.data ≠ []) (hn : ∀ c ∈ needle.data, c.isDigit = false)
    (hA : strContains A needle = false) (hB : strContains B needle = false) :
    strContains (A ++ (toString id ++ B)) needle = false := by
  show containsChars (A ++ (toString id ++ B)).data needle.data = false
  rw [String.data_append, String.data_append]
  have h := containsChars_digit_gap (toString id).data
    (by cases hh : (toString id).data with
        | nil => exact absurd hh (toString_nat_ne_nil id)
        | cons c cs => simp)
    (toString_nat_all_digits id) needle.data hne hn A.data B.data hA hB
  simpa [List.append_assoc] using h

/-! Helper lemmas: left-stripping the request lines. -/

theorem pyLstrip_requestId (t : String) :
    pyLstrip ("          <requestId>" ++ t) = "<requestId>" ++ t := by
  obtain ⟨td⟩ := t
  rfl

theorem pyLstrip_lt (t : String) :
    pyLstrip ("        <" ++ t) = "<" ++ t := by
  obtain ⟨td⟩ := t
  rfl

theorem pyLstrip_ltSlash (t : String) :
    pyLstrip ("        </" ++ t) = "</" ++ t := by
  obtain ⟨td⟩ := t
  rfl

/-- The built request document, re-grouped around the request id digits. -/
theorem sendCommandReq_decomp (c : String) (id : Nat) :
    sendCommandReq c id =
      ("<s:Envelope" ++ " " ++ "xmlns:s=\"http://schemas.xmlsoap.org/soap/envelope/\">"
        ++ " " ++ "<s:Body>" ++ " " ++ "<" ++ c ++ " " ++ "xmlns=\"http://sila.coop\""
        ++ " " ++ "xmlns:i=\"http://www.w3.org/2001/XMLSchema-instance\">" ++ " "
        ++ "<requestId>")
      ++ (toString id
      ++ ("</requestId>" ++ " " ++ "<lockId i:nil=\"true\"/>" ++ " " ++ "</" ++ c
        ++ ">" ++ " " ++ "</s:Body>" ++ " " ++ "</s:Envelope>")) := by
  have hc1 : pyLstrip "<s:Envelope" = "<s:Envelope" := rfl
  have hc2 : pyLstrip "      xmlns:s=\"http://schemas.xmlsoap.org/soap/envelope/\">"
      = "xmlns:s=\"http://schemas.xmlsoap.org/soap/envelope/\">" := rfl
  have hc3 : pyLstrip "      <s:Body>" = "<s:Body>" := rfl
  have hc5 : pyLstrip "          xmlns=\"http://sila.coop\""
      = "xmlns=\"http://sila.coop\"" := rfl
  have hc6 : pyLstrip "          xmlns:i=\"http://www.w3.org/2001/XMLSchema-instance\">"
      = "xmlns:i=\"http://www.w3.org/2001/XMLSchema-instance\">" := rfl
  have hc8 : pyLstrip "          <lockId i:nil=\"true\"/>"
      = "<lockId i:nil=\"true\"/>" := rfl
  have hc10 : pyLstrip "      </s:Body>" = "</s:Body>" := rfl
  have hc11 : pyLstrip "    </s:Envelope>" = "</s:Envelope>" := rfl
  simp only [sendCommandReq, sendCommandLines, List.map, joinSpace,
    hc1, hc2, hc3, hc5, hc6, hc8, hc10, hc11, String.append_assoc,
    pyLstrip_requestId, pyLstrip_ltSlash, pyLstrip_lt]

/-! Helper lemmas: one-step evaluation of the client model. -/

theorem get_state_eval (oracle : Oracle) (cid : Nat) :
    get_state oracle cid =
      (cid + 1, get_state_parse (oracle ⟨"GetStatus", cid + 1⟩)) := rfl

theorem waitLoop_succ (oracle : Oracle) (fuel cid : Nat) :
    waitLoop oracle (fuel + 1) cid =
      match get_state_parse (oracle ⟨"GetStatus", cid + 1⟩) with
      | .error e => some (.error e)
      | .ok s =>
        if s = DeviceState.IDLE then
          some (.ok (cid + 1, [.post "GetStatus" (cid + 1)]))
        else
          match waitLoop oracle fuel (cid + 1) with
          | none => none
          | some (.error e) => some (.error e)
          | some (.ok (idEnd, evs)) =>
            some (.ok (idEnd, .post "GetStatus" (cid + 1) :: .sleep 1 :: evs)) := rfl

theorem runWrappedCommand_eval (oracle : Oracle) (command : String) (fuel cid : Nat) :
    runWrappedCommand oracle command fuel cid =
      match waitLoop oracle fuel (cid + 1) with
      | none => none
      | some (.error e) => some (.error e)
      | some (.ok (idEnd, evs)) =>
        some (.ok (⟨command, cid + 1⟩, idEnd, .post command (cid + 1) :: evs)) := rfl

theorem findDesc_stateDoc (s : String) :
    (stateDoc s).findDesc silaStateTag = some (Xml.elem silaStateTag [] (some s) []) := by
  simp [stateDoc, Xml.findDesc, Xml.findDescList, silaStateTag, Xml.tag]

theorem get_state_parse_stateDoc (s : String) :
    get_state_parse (stateDoc s) =
      match DeviceState.ofValue s with
      | none => .error ("ValueError: " ++ s ++ " is not a valid DeviceState")
      | some d => .ok d := by
  rw [get_state_parse, findDesc_stateDoc]
  rfl

theorem get_state_parse_busy :
    get_state_parse (stateDoc "busy") = .ok DeviceState.BUSY := by
  rw [get_state_parse_stateDoc]
  rfl

theorem get_state_parse_idle :
    get_state_parse (stateDoc "idle") = .ok DeviceState.IDLE := by
  rw [get_state_parse_stateDoc]
  rfl

theorem get_state_parse_inError :
    get_state_parse (stateDoc "inError") =
      .error "ValueError: inError is not a valid DeviceState" := by
  rw [get_state_parse_stateDoc]
  rfl

/-- Scripted run of the polling loop: `k` non-idle observations followed by an
idle one complete the loop at counter `command_id + 1 + k`. -/
theorem waitLoop_script (oracle : Oracle) :
    ∀ (k fuel command_id : Nat),
      (∀ i, i < k → ∃ s, get_state_parse (oracle ⟨"GetStatus", command_id + 1 + i⟩)
          = .ok s ∧ s ≠ DeviceState.IDLE) →
      get_state_parse (oracle ⟨"GetStatus", command_id + 1 + k⟩) = .ok DeviceState.IDLE →
      k + 1 ≤ fuel →
      ∃ evs, waitLoop oracle fuel command_id = some (.ok (command_id + 1 + k, evs)) := by
  intro k
  induction k with
  | zero =>
    intro fuel cid hbusy hidle hfuel
    obtain ⟨f, rfl⟩ : ∃ f, fuel = f + 1 := ⟨fuel - 1, by omega⟩
    refine ⟨[.post "GetStatus" (cid + 1)], ?_⟩
    rw [waitLoop_succ]
    rw [show cid + 1 + 0 = cid + 1 from rfl] at hidle
    rw [hidle]
    simp
  | succ k ih =>
    intro fuel cid hbusy hidle hfuel
    obtain ⟨f, rfl⟩ : ∃ f, fuel = f + 1 := ⟨fuel - 1, by omega⟩
    obtain ⟨s, hs, hne⟩ := hbusy 0 (by omega)
    rw [show cid + 1 + 0 = cid + 1 from rfl] at hs
    have hidle' : get_state_parse (oracle ⟨"GetStatus", cid + 1 + 1 + k⟩)
        = .ok DeviceState.IDLE := by
      rw [show cid + 1 + 1 + k = cid + 1 + (k + 1) by omega]
      exact hidle
    have hbusy' : ∀ i, i < k →
        ∃ t, get_state_parse (oracle ⟨"GetStatus", cid + 1 + 1 + i⟩)
          = .ok t ∧ t ≠ DeviceState.IDLE := by
      intro i hi
      have := hbusy (i + 1) (by omega)
      rw [show cid + 1 + (i + 1) = cid + 1 + 1 + i by omega] at this
      exact this
    obtain ⟨evs, hloop⟩ := ih f (cid + 1) hbusy' hidle' (by omega)
    refine ⟨.post "GetStatus" (cid + 1) :: .sleep 1 :: evs, ?_⟩
    rw [waitLoop_succ, hs]
    simp only [if_neg hne, hloop]
    rw [show cid + 1 + 1 + k = cid + 1 + (k + 1) by omega]

/-! Helper lemmas: explicit forms of the encoders (computation laws for the
reflective field loops). -/

theorem methodStep_to_xml_expand (s : MethodStep) :
    MethodStep.to_xml s = Xml.elem "Step" [] none
      [Xml.elem "Number" [] (some (toString s.number)) [],
       Xml.elem "Slope" [] (some s.slope.render) [],
       Xml.elem "PlateauTemperature" [] (some (toString s.plateau_temperature)) [],
       Xml.elem "PlateauTime" [] (some (toString s.plateau_time)) [],
       Xml.elem "OverShootSlope1" [] (some s.over_shoot_slope_1.render) [],
       Xml.elem "OverShootTemperature" [] (some (toString s.over_shoot_temperature)) [],
       Xml.elem "OverShootTime" [] (some (toString s.over_shoot_time)) [],
       Xml.elem "OverShootSlope2" [] (some s.over_shoot_slope_2.render) [],
       Xml.elem "GotoNumber" [] (some (toString s.goto_number)) [],
       Xml.elem "LoopNumber" [] (some (toString s.loop_number)) [],
       Xml.elem "PidNumber" [] (some (toString s.pid_number)) [],
       Xml.elem "LidTemp" [] (some (toString s.lid_temp)) []] := rfl

theorem pidMember_to_xml_expand (p : PIDMember) :
    PIDMember.to_xml p = Xml.elem "PID" [("number", p.number)] none
      [Xml.elem "PHeating" [] (some (toString p.p_heating)) [],
       Xml.elem "PCooling" [] (some (toString p.p_cooling)) [],
       Xml.elem "IHeating" [] (some (toString p.i_heating)) [],
       Xml.elem "ICooling" [] (some (toString p.i_cooling)) [],
       Xml.elem "DHeating" [] (some (toString p.d_heating)) [],
       Xml.elem "DCooling" [] (some (toString p.d_cooling)) [],
       Xml.elem "PLid" [] (some (toString p.p_lid)) [],
       Xml.elem "ILid" [] (some (toString p.i_lid)) []] := rfl

theorem MetaData.to_dict_expand (m : MetaData) :
    MetaData.to_dict m =
      [("methodName", pyOrEmpty m.method_name),
       ("creator", pyOrEmpty m.creator),
       ("description", pyOrEmpty m.description),
       ("dateTime", m.date_time.isoformat)] := rfl

theorem method_to_xml_expand (m : Method) :
    Method.to_xml m = Xml.elem "Method"
      [("methodName", pyOrEmpty m.metadata.method_name),
       ("creator", pyOrEmpty m.metadata.creator),
       ("description", pyOrEmpty m.metadata.description),
       ("dateTime", m.metadata.date_time.isoformat)] none
      ([Xml.elem "Variant" [] (some (toString m.variant)) [],
        Xml.elem "PlateType" [] (some (toString m.plate_type)) [],
        Xml.elem "FluidQuantity" [] (some (toString m.fluid_quantity)) [],
        Xml.elem "PostHeating" [] (some (pyStrBool m.post_heating)) [],
        Xml.elem "StartBlockTemperature" [] (some (toString m.start_block_temperature)) [],
        Xml.elem "StartLidTemperature" [] (some (toString m.start_lid_temperature)) []]
       ++ m.steps.map MethodStep.to_xml
       ++ [Xml.elem "PIDSet" [] none (m.pid_set.map PIDMember.to_xml)]) := rfl

/-! Claim theorems. -/

/-- C1, counterexample: encoding does not fail fast on invariant-violating
Program Model values. `badGotoStep` has a nonzero `goto_number` not smaller
than its own `number`, and `badMethod` has duplicate step numbers and a step
`pid_number` matching no `PIDMember.number`; `to_xml` still returns a complete
XML document for both, with no validation error. -/
theorem encode_invalid_produces_document :
    (badGotoStep.goto_number ≠ 0 ∧ ¬ badGotoStep.goto_number < badGotoStep.number)
    ∧ MethodStep.to_xml badGotoStep = Xml.elem "Step" [] none
        [Xml.elem "Number" [] (some "1") [],
         Xml.elem "Slope" [] (some "0.1") [],
         Xml.elem "PlateauTemperature" [] (some "95") [],
         Xml.elem "PlateauTime" [] (some "60") [],
         Xml.elem "OverShootSlope1" [] (some "0.0") [],
         Xml.elem "OverShootTemperature" [] (some "0") [],
         Xml.elem "OverShootTime" [] (some "0") [],
         Xml.elem "OverShootSlope2" [] (some "0.0") [],
         Xml.elem "GotoNumber" [] (some "5") [],
         Xml.elem "LoopNumber" [] (some "2") [],
         Xml.elem "PidNumber" [] (some "1") [],
         Xml.elem "LidTemp" [] (some "105") []]
    ∧ (badMethod.steps.map fun s => s.number) = [2, 2]
    ∧ (badMethod.steps.map fun s => toString s.pid_number) = ["7", "7"]
    ∧ (badMethod.pid_set.map fun p => p.number) = ["1"]
    ∧ (Method.to_xml badMethod).tag = "Method"
    ∧ (Method.to_xml badMethod).children.length = 9 :=
  ⟨⟨by decide, by decide⟩, rfl, rfl, rfl, rfl, rfl, rfl⟩

/-- C1, amended: for every MethodStep and Method — including values violating
the Data Model invariants (forward-pointing goto, duplicate step numbers,
unmatched pid_number) — `to_xml` performs no validation: it is total and
always produces an XML document (a `Step` element with all 12 field children,
resp. a `Method` element with 6 scalar children, one child per step and a
`PIDSet` child); no validation error is ever raised at encode time. -/
theorem to_xml_total_no_validation (s : MethodStep) (m : Method) :
    (MethodStep.to_xml s).tag = "Step"
    ∧ (MethodStep.to_xml s).children.length = 12
    ∧ (Method.to_xml m).tag = "Method"
    ∧ (Method.to_xml m).children.length = 7 + m.steps.length := by
  refine ⟨rfl, rfl, rfl, ?_⟩
  rw [method_to_xml_expand]
  simp only [Xml.children, List.length_append, List.length_map, List.length_cons,
    List.length_nil, List.length_singleton]
  omega

/-- C2: `Method.to_xml` produces a `Method` root whose children are one
element per scalar field in declared field order, then one `Step` child per
MethodStep in input order, then exactly one `PIDSet` child wrapping one `PID`
child per PIDMember in order; the root carries the four metadata attributes
with `dateTime` the metadata timestamp's ISO rendering, and each `PID`
element carries its member's number as a `number` attribute, not as a child. -/
theorem method_to_xml_document_shape (m : Method) (p : PIDMember) :
    Method.to_xml m = Xml.elem "Method"
      [("methodName", pyOrEmpty m.metadata.method_name),
       ("creator", pyOrEmpty m.metadata.creator),
       ("description", pyOrEmpty m.metadata.description),
       ("dateTime", m.metadata.date_time.isoformat)] none
      ([Xml.elem "Variant" [] (some (toString m.variant)) [],
        Xml.elem "PlateType" [] (some (toString m.plate_type)) [],
        Xml.elem "FluidQuantity" [] (some (toString m.fluid_quantity)) [],
        Xml.elem "PostHeating" [] (some (pyStrBool m.post_heating)) [],
        Xml.elem "StartBlockTemperature" [] (some (toString m.start_block_temperature)) [],
        Xml.elem "StartLidTemperature" [] (some (toString m.start_lid_temperature)) []]
       ++ m.steps.map MethodStep.to_xml
       ++ [Xml.elem "PIDSet" [] none (m.pid_set.map PIDMember.to_xml)])
    ∧ (Method.to_xml m).attrs = m.metadata.to_dict
    ∧ (Method.to_xml m).attrs.map Prod.fst
        = ["methodName", "creator", "description", "dateTime"]
    ∧ PIDMember.to_xml p = Xml.elem "PID" [("number", p.number)] none
        [Xml.elem "PHeating" [] (some (toString p.p_heating)) [],
         Xml.elem "PCooling" [] (some (toString p.p_cooling)) [],
         Xml.elem "IHeating" [] (some (toString p.i_heating)) [],
         Xml.elem "ICooling" [] (some (toString p.i_cooling)) [],
         Xml.elem "DHeating" [] (some (toString p.d_heating)) [],
         Xml.elem "DCooling" [] (some (toString p.d_cooling)) [],
         Xml.elem "PLid" [] (some (toString p.p_lid)) [],
         Xml.elem "ILid" [] (some (toString p.i_lid)) []]
    ∧ (PIDMember.to_xml p).children.map Xml.tag
        = ["PHeating", "PCooling", "IHeating", "ICooling",
           "DHeating", "DCooling", "PLid", "ILid"] :=
  ⟨method_to_xml_expand m, rfl, rfl, pidMember_to_xml_expand p, rfl⟩

/-- C10: the `Method` class body annotates `start_lid_temperature` twice, but
the annotations dict keeps a single entry, so the dataclass field list carries
it exactly once and `Method.to_xml` emits exactly one `StartLidTemperature`
child for every Method value. -/
theorem duplicate_field_declaration_collapses (m : Method) :
    Method.declaredFields.count "start_lid_temperature" = 2
    ∧ Method.fieldNames.count "start_lid_temperature" = 1
    ∧ Method.fieldNames = ["variant", "plate_type", "fluid_quantity", "post_heating",
        "start_block_temperature", "start_lid_temperature", "steps", "pid_set",
        "metadata"]
    ∧ ((Method.to_xml m).children.countP fun x => x.tag == "StartLidTemperature") = 1 := by
  refine ⟨by decide, by decide, by decide, ?_⟩
  rw [method_to_xml_expand]
  have hstep : ∀ s : MethodStep,
      ((MethodStep.to_xml s).tag == "StartLidTemperature") = false := fun _ => rfl
  simp [Xml.children, List.countP_append, List.countP_map, Function.comp,
    hstep, Xml.tag, List.countP_cons]
  intro a _
  simpa [Xml.tag] using hstep a

/-- C6: `MetaData.to_dict` returns exactly the four keys `methodName`,
`creator`, `description`, `dateTime` in that order; `date_time` maps to its
ISO rendering and an empty `creator`/`description` maps to the empty string
rather than being omitted. -/
theorem metadata_to_dict_four_keys (m : MetaData) :
    m.to_dict.map Prod.fst = ["methodName", "creator", "description", "dateTime"]
    ∧ m.to_dict = [("methodName", pyOrEmpty m.method_name),
        ("creator", pyOrEmpty m.creator),
        ("description", pyOrEmpty m.description),
        ("dateTime", m.date_time.isoformat)]
    ∧ m.to_dict.length = 4
    ∧ (m.creator = "" → ("creator", "") ∈ m.to_dict)
    ∧ (m.description = "" → ("description", "") ∈ m.to_dict) := by
  refine ⟨rfl, MetaData.to_dict_expand m, rfl, ?_, ?_⟩
  · intro h
    rw [MetaData.to_dict_expand]
    simp [pyOrEmpty, h]
  · intro h
    rw [MetaData.to_dict_expand]
    simp [pyOrEmpty, h]

/-- C6 witness: a concrete MetaData with empty creator and description keeps
both keys, mapped to the empty string. -/
theorem metadata_to_dict_four_keys_witness :
    someMeta.creator = "" ∧ someMeta.description = ""
    ∧ ("creator", "") ∈ someMeta.to_dict ∧ ("description", "") ∈ someMeta.to_dict :=
  ⟨rfl, rfl, (metadata_to_dict_four_keys someMeta).2.2.2.1 rfl,
   (metadata_to_dict_four_keys someMeta).2.2.2.2 rfl⟩

/-- C5: every `send_command` call increments the shared counter by exactly 1,
embeds the new value as the `requestId` element of the produced envelope, and
a subsequent call from the same process gets a strictly larger id. -/
theorem send_command_increments_and_embeds_id (cid : Nat) (c c2 : String) :
    (send_command cid c).1 = cid + 1
    ∧ (send_command cid c).2.2 = ⟨c, cid + 1⟩
    ∧ (send_command cid c).2.1 = sendCommandReq c (cid + 1)
    ∧ strContains (send_command cid c).2.1
        ("<requestId>" ++ toString (cid + 1) ++ "</requestId>") = true
    ∧ (send_command ((send_command cid c).1) c2).1 = cid + 2
    ∧ (send_command cid c).1 < (send_command ((send_command cid c).1) c2).1 := by
  refine ⟨rfl, rfl, rfl, ?_, rfl, Nat.lt_succ_self (cid + 1)⟩
  show strContains (sendCommandReq c (cid + 1)) _ = true
  have hmem : ("          <requestId>" ++ toString (cid + 1) ++ "</requestId>")
      ∈ sendCommandLines c (cid + 1) := by simp [sendCommandLines]
  have hc := strContains_joinSpace_of_mem ((sendCommandLines c (cid + 1)).map pyLstrip)
    (pyLstrip ("          <requestId>" ++ toString (cid + 1) ++ "</requestId>"))
    (List.mem_map_of_mem pyLstrip hmem)
  rw [String.append_assoc, pyLstrip_requestId, ← String.append_assoc] at hc
  exact hc

/-- C4: `get_state` extracts the text of the `state` element in the
`http://sila.coop` namespace from the parsed response body and returns IDLE
exactly when the text is `idle` and BUSY exactly when it is `busy`; any other
state text (e.g. `inError`) raises a `ValueError` naming the text instead of
returning a default device state. -/
theorem get_state_maps_state_text (doc e : Xml) (txt : String)
    (hfind : doc.findDesc silaStateTag = some e) (htext : e.text = some txt) :
    (get_state_parse doc = .ok DeviceState.IDLE ↔ txt = "idle")
    ∧ (get_state_parse doc = .ok DeviceState.BUSY ↔ txt = "busy")
    ∧ (txt ≠ "idle" → txt ≠ "busy" →
        get_state_parse doc
          = .error ("ValueError: " ++ txt ++ " is not a valid DeviceState")) := by
  have hp : get_state_parse doc =
      match DeviceState.ofValue txt with
      | none => .error ("ValueError: " ++ txt ++ " is not a valid DeviceState")
      | some d => .ok d := by
    simp only [get_state_parse, hfind, htext]
  by_cases h1 : txt = "idle"
  · subst h1
    refine ⟨by simp [hp, DeviceState.ofValue, DeviceState.members, DeviceState.value], ?_, ?_⟩
    · rw [hp]
      show (Except.ok DeviceState.IDLE = Except.ok DeviceState.BUSY ↔ "idle" = "busy")
      simp
    · intro habs _
      exact absurd rfl habs
  · by_cases h2 : txt = "busy"
    · subst h2
      refine ⟨?_, ?_, ?_⟩
      · rw [hp]
        show (Except.ok DeviceState.BUSY = Except.ok DeviceState.IDLE ↔ "busy" = "idle")
        simp
      · rw [hp]
        show (Except.ok DeviceState.BUSY = Except.ok DeviceState.BUSY ↔ "busy" = "busy")
        simp
      · intro _ habs
        exact absurd rfl habs
    · have hnone : DeviceState.ofValue txt = none := by
        simp only [DeviceState.ofValue, DeviceState.members, List.find?]
        have e1 : (DeviceState.IDLE.value == txt) = false := by
          simp [DeviceState.value, beq_eq_false_iff_ne]
          exact fun h => h1 h.symm
        have e2 : (DeviceState.BUSY.value == txt) = false := by
          simp [DeviceState.value, beq_eq_false_iff_ne]
          exact fun h => h2 h.symm
        rw [e1, e2]
      rw [hp, hnone]
      refine ⟨by simp [h1], by simp [h2], fun _ _ => rfl⟩

/-- C4 witness: on a concrete response body carrying `inError`, `get_state`
raises a distinct ValueError; on `idle` and `busy` bodies it returns the two
enum values. -/
theorem get_state_maps_state_text_witness :
    get_state_parse (stateDoc "inError")
      = .error "ValueError: inError is not a valid DeviceState"
    ∧ get_state_parse (stateDoc "idle") = .ok DeviceState.IDLE
    ∧ get_state_parse (stateDoc "busy") = .ok DeviceState.BUSY := by
  have hin := get_state_maps_state_text (stateDoc "inError")
    (Xml.elem silaStateTag [] (some "inError") []) "inError"
    (findDesc_stateDoc "inError") rfl
  have hid := get_state_maps_state_text (stateDoc "idle")
    (Xml.elem silaStateTag [] (some "idle") []) "idle"
    (findDesc_stateDoc "idle") rfl
  have hbu := get_state_maps_state_text (stateDoc "busy")
    (Xml.elem silaStateTag [] (some "busy") []) "busy"
    (findDesc_stateDoc "busy") rfl
  exact ⟨hin.2.2 (by decide) (by decide), hid.1.mpr rfl, hbu.2.1.mpr rfl⟩

set_option maxRecDepth 100000 in
/-- C8, counterexample: the spec's envelope builder embeds a supplied payload
inside a `ParamsXML` element, but the code's `send_command` has no payload
input at all — at command `LoadMethod` with payload `<Method />`, the
spec-modelled envelope contains `ParamsXML` and the payload while the code's
envelope (its only possible output for that command) contains neither; the
two builders agree exactly when no payload is supplied. -/
theorem send_command_has_no_payload_counterexample :
    strContains (specEnvelopeBuilder "LoadMethod" 1 (some "<Method />")) "ParamsXML" = true
    ∧ strContains (specEnvelopeBuilder "LoadMethod" 1 (some "<Method />")) "<Method />" = true
    ∧ specEnvelopeBuilder "LoadMethod" 1 none = sendCommandReq "LoadMethod" 1
    ∧ strContains (sendCommandReq "LoadMethod" 1) "ParamsXML" = false
    ∧ strContains (sendCommandReq "LoadMethod" 1) "<Method />" = false
    ∧ sendCommandReq "LoadMethod" 1 ≠ specEnvelopeBuilder "LoadMethod" 1 (some "<Method />") :=
  ⟨by decide, by decide, by decide, by decide, by decide, by decide⟩

set_option maxRecDepth 100000 in
/-- C8, amended: `send_command` accepts no payload, so no envelope it produces
ever contains a `ParamsXML` element: for each command name the client issues
(`OpenDoor`, `CloseDoor`, `StopMethod`, `GetStatus`) and every request id, the
produced envelope has no `ParamsXML` occurrence. -/
theorem envelope_never_contains_paramsxml (id : Nat) :
    strContains (sendCommandReq "OpenDoor" id) "ParamsXML" = false
    ∧ strContains (sendCommandReq "CloseDoor" id) "ParamsXML" = false
    ∧ strContains (sendCommandReq "StopMethod" id) "ParamsXML" = false
    ∧ strContains (sendCommandReq "GetStatus" id) "ParamsXML" = false := by
  refine ⟨?_, ?_, ?_, ?_⟩ <;>
  · rw [sendCommandReq_decomp]
    exact strContains_gap _ _ "ParamsXML" id (by decide) (by decide) (by decide) (by decide)

theorem parse_always_busy (r : HttpResponse) :
    get_state_parse (oracleAlwaysBusy r) = .ok DeviceState.BUSY :=
  get_state_parse_busy

theorem parse_always_idle (r : HttpResponse) :
    get_state_parse (oracleAlwaysIdle r) = .ok DeviceState.IDLE :=
  get_state_parse_idle

/-- C3: with scripted statuses busy, busy, idle, a wrapped operation issues
its command once, then exactly three `GetStatus` polls and exactly two
one-second sleeps (one after each non-idle observation), stops polling at the
idle observation, and hands the original command's response to the caller. -/
theorem wrapped_command_busy_busy_idle_trace (n fuel : Nat) (hfuel : 3 ≤ fuel) :
    runWrappedCommand (oracleBusyBusyIdle n) "OpenDoor" fuel n
      = some (.ok (⟨"OpenDoor", n + 1⟩, n + 4,
          [.post "OpenDoor" (n + 1),
           .post "GetStatus" (n + 2), .sleep 1,
           .post "GetStatus" (n + 3), .sleep 1,
           .post "GetStatus" (n + 4)]))
    ∧ ([Event.post "OpenDoor" (n + 1), .post "GetStatus" (n + 2), .sleep 1,
        .post "GetStatus" (n + 3), .sleep 1, .post "GetStatus" (n + 4)].countP
          fun e => match e with | .post "GetStatus" _ => true | _ => false) = 3
    ∧ ([Event.post "OpenDoor" (n + 1), .post "GetStatus" (n + 2), .sleep 1,
        .post "GetStatus" (n + 3), .sleep 1, .post "GetStatus" (n + 4)].countP
          fun e => match e with | .sleep _ => true | _ => false) = 2 := by
  obtain ⟨f, rfl⟩ : ∃ f, fuel = f + 3 := ⟨fuel - 3, by omega⟩
  have ho2 : oracleBusyBusyIdle n ⟨"GetStatus", n + 1 + 1⟩ = stateDoc "busy" := by
    simp only [oracleBusyBusyIdle]
    rw [if_pos (by omega)]
  have ho3 : oracleBusyBusyIdle n ⟨"GetStatus", n + 2 + 1⟩ = stateDoc "busy" := by
    simp only [oracleBusyBusyIdle]
    rw [if_pos (by omega)]
  have ho4 : oracleBusyBusyIdle n ⟨"GetStatus", n + 3 + 1⟩ = stateDoc "idle" := by
    simp only [oracleBusyBusyIdle]
    rw [if_neg (by omega)]
  have hw1 : waitLoop (oracleBusyBusyIdle n) (f + 1) (n + 3)
      = some (.ok (n + 4, [.post "GetStatus" (n + 4)])) := by
    rw [waitLoop_succ, ho4, get_state_parse_idle]
    simp
  have hw2 : waitLoop (oracleBusyBusyIdle n) (f + 2) (n + 2)
      = some (.ok (n + 4, [.post "GetStatus" (n + 3), .sleep 1,
          .post "GetStatus" (n + 4)])) := by
    rw [show f + 2 = (f + 1) + 1 from rfl, waitLoop_succ, ho3, get_state_parse_busy,
      show n + 2 + 1 = n + 3 from rfl, hw1]
    simp
  have hw3 : waitLoop (oracleBusyBusyIdle n) (f + 3) (n + 1)
      = some (.ok (n + 4, [.post "GetStatus" (n + 2), .sleep 1,
          .post "GetStatus" (n + 3), .sleep 1, .post "GetStatus" (n + 4)])) := by
    rw [show f + 3 = (f + 2) + 1 from rfl, waitLoop_succ, ho2, get_state_parse_busy,
      show n + 1 + 1 = n + 2 from rfl, hw2]
    simp
  refine ⟨?_, rfl, rfl⟩
  rw [runWrappedCommand_eval, hw3]

/-- C3 witness: the busy, busy, idle trace at the initial counter value. -/
theorem wrapped_command_busy_busy_idle_trace_witness :
    runWrappedCommand (oracleBusyBusyIdle commandIdInit) "OpenDoor" 3 commandIdInit
      = some (.ok (⟨"OpenDoor", commandIdInit + 1⟩, commandIdInit + 4,
          [.post "OpenDoor" (commandIdInit + 1),
           .post "GetStatus" (commandIdInit + 2), .sleep 1,
           .post "GetStatus" (commandIdInit + 3), .sleep 1,
           .post "GetStatus" (commandIdInit + 4)])) :=
  (wrapped_command_busy_busy_idle_trace commandIdInit 3 (by decide)).1

/-- C7: the polling loop returns successfully only after a poll has reported
idle — the final event is always the idle `GetStatus` poll — and against a
device whose every response parses to a non-idle state, the loop is still
waiting after any number of polls: it never completes (the source loop has no
timeout). -/
theorem wait_until_idle_terminal_behavior :
    (∀ oracle : Oracle,
      (∀ r : HttpResponse, ∃ s, get_state_parse (oracle r) = .ok s
          ∧ s ≠ DeviceState.IDLE) →
      ∀ fuel cid : Nat, waitLoop oracle fuel cid = none)
    ∧ (∀ (oracle : Oracle) (fuel cid idEnd : Nat) (evs : List Event),
        waitLoop oracle fuel cid = some (.ok (idEnd, evs)) →
        get_state_parse (oracle ⟨"GetStatus", idEnd⟩) = .ok DeviceState.IDLE
        ∧ evs.getLast? = some (.post "GetStatus" idEnd)) := by
  constructor
  · intro oracle h fuel
    induction fuel with
    | zero => intro cid; rfl
    | succ f ih =>
      intro cid
      rw [waitLoop_succ]
      obtain ⟨s, hs, hne⟩ := h ⟨"GetStatus", cid + 1⟩
      rw [hs]
      simp [if_neg hne, ih (cid + 1)]
  · intro oracle fuel
    induction fuel with
    | zero =>
      intro cid idEnd evs h
      exact absurd h (by simp [waitLoop])
    | succ f ih =>
      intro cid idEnd evs h
      rw [waitLoop_succ] at h
      cases hparse : get_state_parse (oracle ⟨"GetStatus", cid + 1⟩) with
      | error e => simp [hparse] at h
      | ok s =>
        by_cases hs : s = DeviceState.IDLE
        · subst hs
          simp only [hparse, reduceIte] at h
          obtain ⟨rfl, rfl⟩ := by simpa using h
          exact ⟨hparse, rfl⟩
        · cases hloop : waitLoop oracle f (cid + 1) with
          | none => simp [hparse, hs, hloop] at h
          | some r =>
            cases r with
            | error e => simp [hparse, hs, hloop] at h
            | ok pr =>
              obtain ⟨id2, evs2⟩ := pr
              have h2 : (some (Except.ok (id2,
                  Event.post "GetStatus" (cid + 1) :: Event.sleep 1 :: evs2))
                  : Option (Except String (Nat × List Event)))
                  = some (Except.ok (idEnd, evs)) := by
                rw [← h, hparse]
                simp [hs, hloop]
              obtain ⟨rfl, rfl⟩ := by simpa using h2
              have ihres := ih (cid + 1) id2 evs2 hloop
              refine ⟨ihres.1, ?_⟩
              cases hevs : evs2 with
              | nil =>
                rw [hevs] at ihres
                exact absurd ihres.2 (by simp)
              | cons e0 es =>
                rw [List.getLast?_cons_cons, List.getLast?_cons_cons]
                rw [hevs] at ihres
                exact ihres.2

/-- C7 witness: an always-busy device leaves the loop still waiting after 5
polls at the initial counter, and a run that did return (one idle poll)
returned right at an idle-reporting poll. -/
theorem wait_until_idle_terminal_behavior_witness :
    waitLoop oracleAlwaysBusy 5 commandIdInit = none
    ∧ (get_state_parse (oracleAlwaysIdle ⟨"GetStatus", 1⟩) = .ok DeviceState.IDLE
       ∧ [Event.post "GetStatus" 1].getLast? = some (.post "GetStatus" 1)) := by
  constructor
  · exact wait_until_idle_terminal_behavior.1 oracleAlwaysBusy
      (fun r => ⟨DeviceState.BUSY, parse_always_busy r, by decide⟩) 5 commandIdInit
  · refine wait_until_idle_terminal_behavior.2 oracleAlwaysIdle 1 0 1
      [Event.post "GetStatus" 1] ?_
    rw [show (1 : Nat) = 0 + 1 from rfl, waitLoop_succ, parse_always_idle]
    simp

/-- C9: `get_state` goes through `get_status1`, which is exactly
`send_command("GetStatus")`, so each poll advances the shared counter by one;
a wrapped operation that observes `k` non-idle states before the idle one
finishes with the counter increased by `k + 2` in total: one increment for the
command itself and one per poll, the final idle poll included. -/
theorem get_state_advances_counter :
    (∀ (oracle : Oracle) (cid : Nat),
      get_status1 cid = send_command cid "GetStatus"
      ∧ (get_state oracle cid).1 = cid + 1
      ∧ (get_status1 cid).2.2 = ⟨"GetStatus", cid + 1⟩)
    ∧ (∀ (oracle : Oracle) (c : String) (cid k fuel : Nat),
        (∀ i, i < k → ∃ s, get_state_parse (oracle ⟨"GetStatus", cid + 2 + i⟩)
            = .ok s ∧ s ≠ DeviceState.IDLE) →
        get_state_parse (oracle ⟨"GetStatus", cid + 2 + k⟩) = .ok DeviceState.IDLE →
        k + 1 ≤ fuel →
        ∃ evs, runWrappedCommand oracle c fuel cid
          = some (.ok (⟨c, cid + 1⟩, cid + (k + 2), evs))) := by
  refine ⟨fun oracle cid => ⟨rfl, rfl, rfl⟩, ?_⟩
  intro oracle c cid k fuel hbusy hidle hfuel
  obtain ⟨evs, hloop⟩ := waitLoop_script oracle k fuel (cid + 1)
    (by
      intro i hi
      have hb := hbusy i hi
      rw [show cid + 2 + i = cid + 1 + 1 + i by omega] at hb
      exact hb)
    (by
      rw [show cid + 1 + 1 + k = cid + 2 + k by omega]
      exact hidle)
    hfuel
  refine ⟨.post c (cid + 1) :: evs, ?_⟩
  rw [runWrappedCommand_eval, hloop]
  show some (Except.ok ((⟨c, cid + 1⟩ : HttpResponse), cid + 1 + 1 + k,
    Event.post c (cid + 1) :: evs)) = _
  rw [show cid + 1 + 1 + k = cid + (k + 2) by omega]

/-- C9 witness: with the busy, busy, idle script (k = 2 non-idle polls), a
wrapped OpenDoor at the initial counter value finishes with the counter
increased by 4 = 2 + 2. -/
theorem get_state_advances_counter_witness :
    ∃ evs, runWrappedCommand (oracleBusyBusyIdle commandIdInit) "OpenDoor" 3 commandIdInit
      = some (.ok (⟨"OpenDoor", commandIdInit + 1⟩, commandIdInit + (2 + 2), evs)) := by
  refine get_state_advances_counter.2 (oracleBusyBusyIdle commandIdInit) "OpenDoor"
    commandIdInit 2 3 ?_ ?_ (by decide)
  · intro i hi
    refine ⟨DeviceState.BUSY, ?_, by decide⟩
    have ho : oracleBusyBusyIdle commandIdInit
        ⟨"GetStatus", commandIdInit + 2 + i⟩ = stateDoc "busy" := by
      simp only [oracleBusyBusyIdle]
      rw [if_pos (by omega)]
    rw [ho, get_state_parse_busy]
  · have ho : oracleBusyBusyIdle commandIdInit
        ⟨"GetStatus", commandIdInit + 2 + 2⟩ = stateDoc "idle" := by
      simp only [oracleBusyBusyIdle]
      rw [if_neg (by omega)]
    rw [ho, get_state_parse_idle]
